import Mathlib

/-!
Shallow embedding of the Fluxel SWC transform
(`src/crates/plugin/src/sample.rs`, `FluxelTransform::visit_mut_module`).

The transform rewrites a module whose default export is a named function
declaration (or a bare identifier) into a custom-element class, a
`customElements.define` registration call and a re-pointed default export.

Modelling decisions:
* Spans are always `DUMMY_SP` in the source, so they are dropped.
* Identifiers (`Id = (Atom, SyntaxContext)`) are modelled by their name
  string; the source only ever uses `fn_id.0` (the atom) when synthesizing.
* `char::is_uppercase` (a full-Unicode property in Rust) is rendered
  exactly on the Latin-1 range U+0000..U+00FF — ASCII capitals `A`..`Z` plus
  the Latin-1 capitals `À`..`Ö` and `Ø`..`Þ` — and characters above U+00FF
  are treated as non-uppercase. `to_ascii_lowercase` is exact for all
  characters (it only moves ASCII capitals). The mismatch between the
  Unicode uppercase test and the ASCII-only lowercasing is therefore
  expressible in the model: a Latin-1 capital such as `É` is hyphenated but
  emitted unchanged, exactly as in the program.
* Argument spreads are never constructed nor inspected by the transform, so
  call arguments are plain expressions.
* Constructor bodies carry the statement forms the transform synthesizes
  (variable declarations and expression statements); any other statement
  form nested inside a constructor body is collapsed into an opaque variant,
  which breaks the statement/class mutual recursion of the full grammar.
* Module items not inspected by the transform (imports, named exports, other
  statements) are collapsed into opaque variants; the transform never
  recurses into them (`visit_mut_module` does not call
  `visit_mut_children_with`).
-/

namespace Fluxel

/-- The ASCII uppercase test `A`..`Z` (the condition inside Rust's
`to_ascii_lowercase`). -/
def isAsciiUpper (c : Char) : Bool :=
  65 ≤ c.toNat && c.toNat ≤ 90

/-- Model of Rust `char::is_uppercase` (the Unicode `Uppercase` property),
rendered exactly on the Latin-1 range: ASCII capitals `A`..`Z` (65..90) and
the Latin-1 capitals `À`..`Ö` (192..214) and `Ø`..`Þ` (216..222).
Characters above U+00FF are treated as non-uppercase. -/
def isUppercaseChar (c : Char) : Bool :=
  isAsciiUpper c ||
    (192 ≤ c.toNat && c.toNat ≤ 214) ||
    (216 ≤ c.toNat && c.toNat ≤ 222)

/-- Model of Rust `char::to_ascii_lowercase`: ASCII capitals are shifted by
32, every other character is returned unchanged. -/
def toAsciiLowercase (c : Char) : Char :=
  if 65 ≤ c.toNat && c.toNat ≤ 90 then Char.ofNat (c.toNat + 32) else c

/-- One step of the `flat_map` in the tag-name derivation: an uppercase
character becomes a hyphen followed by its ASCII-lowercase form, any other
character is kept. -/
def kebabChar (c : Char) : List Char :=
  if isUppercaseChar c then ['-', toAsciiLowercase c] else [c]

/-- Model of `str::trim_start_matches('-')`: drop every leading hyphen. -/
def trimStartHyphens : List Char → List Char
  | [] => []
  | c :: rest => if c = '-' then trimStartHyphens rest else c :: rest

/-- The tag-name derivation of the source (step 2 of `visit_mut_module`):
`format!("fluxel-{}", name.chars().flat_map(kebab).collect().trim_start_matches('-'))`. -/
def tagName (name : String) : String :=
  "fluxel-" ++ String.mk (trimStartHyphens (name.data.flatMap kebabChar))

/-- Binding patterns; the transform only constructs identifier bindings
(`Pat::Ident`). -/
inductive Pat where
  | identP (name : String)
  deriving DecidableEq, Repr

/-- `VarDeclKind`; the transform only constructs `Const`. -/
inductive VarDeclKind where
  | varK
  | letK
  | constK
  deriving DecidableEq, Repr

/-- Expressions, covering the node kinds the transform constructs.
Call arguments carry no spread (the source always passes `spread: None`);
object properties are key-value pairs with identifier keys, the only shape
the transform builds. -/
inductive Expr where
  | identE (name : String)
  | litStr (value : String)
  | object (props : List (String × Expr))
  | thisE
  | call (callee : Expr) (args : List Expr)
  | member (obj : Expr) (prop : String)
  | otherE

/-- `VarDeclarator`: a pattern, an optional initializer, a `definite` flag. -/
structure VarDeclarator where
  name : Pat
  init : Option Expr
  definite : Bool

/-- `VarDecl`. -/
structure VarDecl where
  kind : VarDeclKind
  declareFlag : Bool
  decls : List VarDeclarator

/-- Statements occurring inside a constructor body. The transform only
builds variable declarations and expression statements there; every other
form is opaque. -/
inductive CStmt where
  | declVar (v : VarDecl)
  | exprCS (e : Expr)
  | otherCS

/-- `Constructor`: the key is always the identifier `constructor` in the
source, so only the parameter count and the optional body are kept. -/
structure Ctor where
  paramCount : Nat
  body : Option (List CStmt)

/-- `ClassMember`; the transform only constructs a `Constructor` member. -/
inductive ClassMember where
  | ctorM (c : Ctor)
  | otherM

/-- `Class`: member list, optional superclass expression, `is_abstract`. -/
structure FClass where
  body : List ClassMember
  superClass : Option Expr
  isAbstract : Bool

/-- `Decl`: function, class or variable declarations (other kinds opaque). -/
inductive Decl where
  | fnD (name : String)
  | classD (ident : String) (declareFlag : Bool) (cls : FClass)
  | varD (v : VarDecl)
  | otherD

/-- Top-level statements. -/
inductive FStmt where
  | declS (d : Decl)
  | exprS (e : Expr)
  | otherS

/-- `DefaultDecl`: payload of an `ExportDefaultDecl` item. `fnDD` carries the
optional function name (`FnExpr::ident`); `identDD` is the bare-identifier
form matched by the source; classes (with their optional name) and TS
interfaces fall into the source's `_` arm. -/
inductive DefaultDecl where
  | fnDD (ident : Option String)
  | identDD (name : String)
  | classDD (ident : Option String)
  | otherDD
  deriving DecidableEq, Repr

/-- `ModuleDecl`; only the `ExportDefaultDecl` variant is inspected. -/
inductive ModuleDecl where
  | exportDefaultDecl (decl : DefaultDecl)
  | otherMD
  deriving DecidableEq, Repr

/-- `ModuleItem`. -/
inductive ModuleItem where
  | moduleDecl (d : ModuleDecl)
  | stmtI (s : FStmt)

/-- `Module`: an ordered sequence of top-level items. -/
structure Module where
  body : List ModuleItem

/-- Whether an item is a default-export declaration item. -/
def isEDD : ModuleItem → Bool
  | .moduleDecl (.exportDefaultDecl _) => true
  | _ => false

/-- Step 1 of `visit_mut_module`: the scan loop. Threads the mutable state
`(default_fn_name, stmt_idx)` through the items with their indices.
On every `ExportDefaultDecl` the index is recorded; the payload is
overwritten by the `Fn` (with its optional name) and `Ident` arms and left
unchanged by the `_` arm. -/
def scanAux : List ModuleItem → Nat → Option String → Option Nat →
    Option String × Option Nat
  | [], _, name, idx => (name, idx)
  | item :: rest, i, name, idx =>
    match item with
    | .moduleDecl (.exportDefaultDecl d) =>
      let name' := match d with
        | .fnDD oid => oid
        | .identDD n => some n
        | _ => name
      scanAux rest (i + 1) name' (some i)
    | _ => scanAux rest (i + 1) name idx

/-- The scan of a module, started from index 0 with both slots empty. -/
def scan (m : Module) : Option String × Option Nat :=
  scanAux m.body 0 none none

/-- The name of the generated class: `format!("{}Element", fn_id.0)`. -/
def classIdent (fnName : String) : String :=
  fnName ++ "Element"

/-- The constructor body built in step 3 of `visit_mut_module`:
`const __props = {}; const _n = <fn>(__props);
this.attachShadow({mode:"open"}).appendChild(_n);`. -/
def ctorBody (fnName : String) : List CStmt :=
  [ .declVar
      { kind := .constK
        declareFlag := false
        decls := [{ name := .identP "__props"
                    init := some (.object [])
                    definite := false }] }
  , .declVar
      { kind := .constK
        declareFlag := false
        decls := [{ name := .identP "_n"
                    init := some (.call (.identE fnName) [.identE "__props"])
                    definite := false }] }
  , .exprCS (.call
      (.member
        (.call (.member .thisE "attachShadow")
          [.object [("mode", .litStr "open")]])
        "appendChild")
      [.identE "_n"]) ]

/-- The synthesized class declaration item: `class <fn>Element extends
HTMLElement { constructor() { ... } }`, with one constructor member and
`super_class: Some(HTMLElement)` as in the source. -/
def classDeclItem (fnName : String) : ModuleItem :=
  .stmtI (.declS (.classD (classIdent fnName) false
    { body := [.ctorM { paramCount := 0, body := some (ctorBody fnName) }]
      superClass := some (.identE "HTMLElement")
      isAbstract := false }))

/-- The synthesized registration item (step 4):
`customElements.define("<tag>", <Class>)` as an expression statement. -/
def defineCallItem (fnName : String) : ModuleItem :=
  .stmtI (.exprS (.call
    (.member (.identE "customElements") "define")
    [.litStr (tagName fnName), .identE (classIdent fnName)]))

/-- The synthesized replacement default export (step 5):
`ExportDefaultDecl` whose payload is `DefaultDecl::Ident(class_ident)`. -/
def newExportItem (fnName : String) : ModuleItem :=
  .moduleDecl (.exportDefaultDecl (.identDD (classIdent fnName)))

/-- `Vec::splice(i..=i, repl)`: replace the single item at index `i` with
the replacement sequence. -/
def spliceAt (body : List ModuleItem) (i : Nat) (repl : List ModuleItem) :
    List ModuleItem :=
  body.take i ++ repl ++ body.drop (i + 1)

/-- The whole of `visit_mut_module`: scan, eligibility check, synthesis and
splice. When `default_fn_name` is `None` the source returns early; when
`stmt_idx` is `None` the `if let` around the splice leaves the body
untouched (unreachable in practice, mirrored faithfully). -/
def transform (m : Module) : Module :=
  match scan m with
  | (none, _) => m
  | (some _, none) => m
  | (some fnName, some i) =>
    { body := spliceAt m.body i
        [classDeclItem fnName, defineCallItem fnName, newExportItem fnName] }

/-- How one `ExportDefaultDecl` payload updates the scan's
`default_fn_name` slot: `Fn` overwrites it with the function's optional
name, `Ident` with that identifier, every other shape leaves it unchanged.
Mirrors the inner `match` of the scan loop. -/
def payloadUpdate (d : DefaultDecl) (prev : Option String) : Option String :=
  match d with
  | .fnDD oid => oid
  | .identDD n => some n
  | _ => prev

/-- The tag-derivation walk as the amended claim words it: on each
uppercase character emit a hyphen followed by its ASCII-lowercased form (a
non-ASCII capital is emitted unchanged after the hyphen), on every other
character emit it unchanged. The spec's original wording — "its lowercase
form" — differs at non-ASCII capitals; see the C2 counterexample. -/
def specTagWalk : List Char → List Char
  | [] => []
  | c :: rest =>
    if isUppercaseChar c then '-' :: toAsciiLowercase c :: specTagWalk rest
    else c :: specTagWalk rest

/-- The tag derivation as the amended claim words it: walk the characters,
strip the leading hyphens, prepend the fixed prefix. -/
def tagNameSpec (name : String) : String :=
  "fluxel-" ++ String.mk (trimStartHyphens (specTagWalk name.data))

/-- The superclass expression of a module item that is a class declaration
(`none` for every other item shape). -/
def itemSuperClass : ModuleItem → Option Expr
  | .stmtI (.declS (.classD _ _ cls)) => cls.superClass
  | _ => none

/-- The member list of a module item that is a class declaration (empty for
every other item shape). -/
def itemClassMembers : ModuleItem → List ClassMember
  | .stmtI (.declS (.classD _ _ cls)) => cls.body
  | _ => []

/-- Whether a top-level item binds the given name: function, class and
variable declarations bind their names, and so do named default-exported
function and class declarations. Expression statements, bare-identifier
default exports and the opaque variants bind nothing. -/
def declaresName (n : String) : ModuleItem → Bool
  | .stmtI (.declS (.fnD name)) => name == n
  | .stmtI (.declS (.classD ident _ _)) => ident == n
  | .stmtI (.declS (.varD v)) =>
      v.decls.any (fun dr => match dr.name with | .identP x => x == n)
  | .moduleDecl (.exportDefaultDecl (.fnDD (some name))) => name == n
  | .moduleDecl (.exportDefaultDecl (.classDD (some name))) => name == n
  | _ => false

/-- The class-declaration shape the spec claims (C4): a class named by the
component name plus `Element`, whose sole member is a zero-argument
constructor that binds an empty object literal, binds the result of calling
the component identifier with that object, then calls `attachShadow` on
`this` with `mode: "open"` and `appendChild` on its result. -/
def specClassItem (N : String) : ModuleItem :=
  .stmtI (.declS (.classD (N ++ "Element") false
    { body := [.ctorM
        { paramCount := 0
          body := some
            [ .declVar
                { kind := .constK
                  declareFlag := false
                  decls := [{ name := .identP "__props"
                              init := some (.object [])
                              definite := false }] }
            , .declVar
                { kind := .constK
                  declareFlag := false
                  decls := [{ name := .identP "_n"
                              init := some (.call (.identE N) [.identE "__props"])
                              definite := false }] }
            , .exprCS (.call
                (.member
                  (.call (.member .thisE "attachShadow")
                    [.object [("mode", .litStr "open")]])
                  "appendChild")
                [.identE "_n"]) ] }]
      superClass := some (.identE "HTMLElement")
      isAbstract := false }))

/-- Example module: `export default function Foo() { ... }` alone. -/
def mFoo : Module :=
  ⟨[.moduleDecl (.exportDefaultDecl (.fnDD (some "Foo")))]⟩

/-- Example module with two default-export items: a named function followed
by a default-exported class (which the scan's `_` arm ignores). -/
def mMulti : Module :=
  ⟨[.moduleDecl (.exportDefaultDecl (.fnDD (some "Foo"))),
    .moduleDecl (.exportDefaultDecl (.classDD none))]⟩

/-! ### Lemmas about the scan loop -/

theorem scanAux_cons_edd (d : DefaultDecl) (rest : List ModuleItem) (i : Nat)
    (nm : Option String) (idx : Option Nat) :
    scanAux (.moduleDecl (.exportDefaultDecl d) :: rest) i nm idx =
      scanAux rest (i + 1) (payloadUpdate d nm) (some i) := by
  cases d <;> rfl

theorem scanAux_cons_nonEdd (it : ModuleItem) (h : isEDD it = false)
    (rest : List ModuleItem) (i : Nat) (nm : Option String) (idx : Option Nat) :
    scanAux (it :: rest) i nm idx = scanAux rest (i + 1) nm idx := by
  cases it with
  | moduleDecl md =>
    cases md with
    | exportDefaultDecl d => simp [isEDD] at h
    | otherMD => rfl
  | stmtI s => rfl

theorem scanAux_append (xs ys : List ModuleItem) (k : Nat) (nm : Option String)
    (idx : Option Nat) :
    scanAux (xs ++ ys) k nm idx =
      scanAux ys (k + xs.length) (scanAux xs k nm idx).1 (scanAux xs k nm idx).2 := by
  induction xs generalizing k nm idx with
  | nil => simp [scanAux]
  | cons it rest ih =>
    have harith : k + 1 + rest.length = k + (it :: rest).length := by
      simp only [List.length_cons]
      omega
    cases it with
    | moduleDecl md =>
      cases md with
      | exportDefaultDecl d =>
        rw [List.cons_append, scanAux_cons_edd, scanAux_cons_edd, ih, harith]
      | otherMD =>
        rw [List.cons_append, scanAux_cons_nonEdd (.moduleDecl .otherMD) rfl,
          scanAux_cons_nonEdd (.moduleDecl .otherMD) rfl, ih, harith]
    | stmtI s =>
      rw [List.cons_append, scanAux_cons_nonEdd (.stmtI s) rfl,
        scanAux_cons_nonEdd (.stmtI s) rfl, ih, harith]

theorem scanAux_no_edd : ∀ (l : List ModuleItem), (∀ it ∈ l, isEDD it = false) →
    ∀ (k : Nat) (nm : Option String) (idx : Option Nat),
      scanAux l k nm idx = (nm, idx)
  | [], _, _, _, _ => rfl
  | it :: rest, h, k, nm, idx => by
    rw [scanAux_cons_nonEdd it (h it (List.mem_cons_self it rest))]
    exact scanAux_no_edd rest (fun x hx => h x (List.mem_cons_of_mem _ hx)) (k + 1) nm idx

/-- Scanning a module whose last default-export item sits after `pre` and is
followed only by non-default-export items: the recorded index is the
position of that last item, and the recorded payload is that item's update
applied to whatever the earlier items recorded. -/
theorem scan_last_edd (pre post : List ModuleItem) (d : DefaultDecl)
    (hpost : ∀ it ∈ post, isEDD it = false) :
    scanAux (pre ++ .moduleDecl (.exportDefaultDecl d) :: post) 0 none none =
      (payloadUpdate d (scanAux pre 0 none none).1, some pre.length) := by
  rw [scanAux_append, scanAux_cons_edd, scanAux_no_edd post hpost]
  simp

/-- If the scan records an index, the list decomposes at the last
default-export item: everything after it is a non-default-export item. -/
theorem scanAux_idx_decomp (l : List ModuleItem) (k : Nat) (nm : Option String)
    (idx : Option Nat) (i : Nat) (h : (scanAux l k nm idx).2 = some i) :
    (idx = some i ∧ ∀ it ∈ l, isEDD it = false) ∨
    (∃ pre d post, l = pre ++ .moduleDecl (.exportDefaultDecl d) :: post ∧
      i = k + pre.length ∧ ∀ it ∈ post, isEDD it = false) := by
  induction l generalizing k nm idx with
  | nil =>
    exact Or.inl ⟨h, by intro it hx; cases hx⟩
  | cons it rest ih =>
    cases it with
    | moduleDecl md =>
      cases md with
      | exportDefaultDecl d =>
        rw [scanAux_cons_edd] at h
        rcases ih (k + 1) (payloadUpdate d nm) (some k) h with
          ⟨hik, hclean⟩ | ⟨pre, d', post, hrest, hi, hclean⟩
        · refine Or.inr ⟨[], d, rest, rfl, ?_, hclean⟩
          have hk := Option.some.inj hik
          simp only [List.length_nil, Nat.add_zero]
          omega
        · refine Or.inr ⟨.moduleDecl (.exportDefaultDecl d) :: pre, d', post,
            by rw [hrest, List.cons_append], ?_, hclean⟩
          simp only [List.length_cons]
          omega
      | otherMD =>
        rw [scanAux_cons_nonEdd (.moduleDecl .otherMD) rfl] at h
        rcases ih (k + 1) nm idx h with
          ⟨hik, hclean⟩ | ⟨pre, d', post, hrest, hi, hclean⟩
        · refine Or.inl ⟨hik, ?_⟩
          intro x hx
          rcases List.mem_cons.mp hx with rfl | hx
          · rfl
          · exact hclean x hx
        · refine Or.inr ⟨.moduleDecl .otherMD :: pre, d', post,
            by rw [hrest, List.cons_append], ?_, hclean⟩
          simp only [List.length_cons]
          omega
    | stmtI s =>
      rw [scanAux_cons_nonEdd (.stmtI s) rfl] at h
      rcases ih (k + 1) nm idx h with
        ⟨hik, hclean⟩ | ⟨pre, d', post, hrest, hi, hclean⟩
      · refine Or.inl ⟨hik, ?_⟩
        intro x hx
        rcases List.mem_cons.mp hx with rfl | hx
        · rfl
        · exact hclean x hx
      · refine Or.inr ⟨.stmtI s :: pre, d', post,
          by rw [hrest, List.cons_append], ?_, hclean⟩
        simp only [List.length_cons]
        omega

/-- A module whose scan records index `i` splits at its last default-export
item, which sits at position `i`. -/
theorem scan_decomp (m : Module) (i : Nat) (h : (scan m).2 = some i) :
    ∃ pre d post, m.body = pre ++ .moduleDecl (.exportDefaultDecl d) :: post ∧
      i = pre.length ∧ ∀ it ∈ post, isEDD it = false := by
  rcases scanAux_idx_decomp m.body 0 none none i h with
    ⟨hik, _⟩ | ⟨pre, d, post, hb, hi, hp⟩
  · cases hik
  · exact ⟨pre, d, post, hb, by omega, hp⟩

/-! ### Shape of the transformed module -/

theorem transform_eq_splice (m : Module) (N : String) (i : Nat)
    (h : scan m = (some N, some i)) :
    transform m =
      ⟨spliceAt m.body i [classDeclItem N, defineCallItem N, newExportItem N]⟩ := by
  unfold transform
  rw [h]

theorem get_opt_append_add {α : Type} (l₁ l₂ : List α) (n : Nat) :
    (l₁ ++ l₂)[l₁.length + n]? = l₂[n]? := by
  rw [List.getElem?_append_right (Nat.le_add_right _ _)]
  simp

/-- For an eligible module the body decomposes around the last
default-export item, and the transformed body is the same decomposition
with that one item replaced by the three synthesized items. -/
theorem transform_decomp (m : Module) (N : String) (i : Nat)
    (h : scan m = (some N, some i)) :
    ∃ pre d post,
      m.body = pre ++ .moduleDecl (.exportDefaultDecl d) :: post ∧
      i = pre.length ∧ (∀ it ∈ post, isEDD it = false) ∧
      (transform m).body =
        pre ++ classDeclItem N :: defineCallItem N :: newExportItem N :: post := by
  obtain ⟨pre, d, post, hb, hi, hp⟩ := scan_decomp m i (by rw [h])
  refine ⟨pre, d, post, hb, hi, hp, ?_⟩
  rw [transform_eq_splice m N i h]
  show m.body.take i ++ _ ++ m.body.drop (i + 1) = _
  rw [hb, hi, List.take_left,
    List.append_cons pre (.moduleDecl (.exportDefaultDecl d)) post,
    List.drop_left'
      (show (pre ++ [ModuleItem.moduleDecl (.exportDefaultDecl d)]).length =
        pre.length + 1 by simp),
    List.append_assoc]
  rfl

/-- Positions and length of the transformed body for an eligible module. -/
theorem transform_items (m : Module) (N : String) (i : Nat)
    (h : scan m = (some N, some i)) :
    i < m.body.length ∧
    (transform m).body.length = m.body.length + 2 ∧
    (transform m).body[i]? = some (classDeclItem N) ∧
    (transform m).body[i + 1]? = some (defineCallItem N) ∧
    (transform m).body[i + 2]? = some (newExportItem N) := by
  obtain ⟨pre, d, post, hb, hi, hp, ht⟩ := transform_decomp m N i h
  subst hi
  refine ⟨?_, ?_, ?_, ?_, ?_⟩
  · rw [hb]
    simp only [List.length_append, List.length_cons]
    omega
  · rw [hb, ht]
    simp only [List.length_append, List.length_cons]
    omega
  · rw [ht]
    simpa using get_opt_append_add pre
      (classDeclItem N :: defineCallItem N :: newExportItem N :: post) 0
  · rw [ht]
    simpa using get_opt_append_add pre
      (classDeclItem N :: defineCallItem N :: newExportItem N :: post) 1
  · rw [ht]
    simpa using get_opt_append_add pre
      (classDeclItem N :: defineCallItem N :: newExportItem N :: post) 2

/-! ### Character and string lemmas -/

theorem toNat_ofNat_lt (n : Nat) (h : n < 55296) : (Char.ofNat n).toNat = n := by
  have hv : n.isValidChar := Or.inl h
  simp [Char.ofNat, hv, Char.ofNatAux, Char.toNat, UInt32.toNat, BitVec.toNat_ofNatLt]

theorem isAsciiUpper_toAsciiLowercase (c : Char) :
    isAsciiUpper (toAsciiLowercase c) = false := by
  unfold toAsciiLowercase isAsciiUpper
  by_cases h : 65 ≤ c.toNat ∧ c.toNat ≤ 90
  · rw [if_pos (by simpa using h)]
    rw [toNat_ofNat_lt (c.toNat + 32) (by omega)]
    simp only [Bool.and_eq_false_iff, decide_eq_false_iff_not, not_le]
    omega
  · rw [if_neg (by simpa using h)]
    simp only [Bool.and_eq_false_iff, decide_eq_false_iff_not, not_le]
    omega

theorem isAsciiUpper_eq_false_of_not_upper (c : Char)
    (h : isUppercaseChar c = false) : isAsciiUpper c = false := by
  unfold isUppercaseChar at h
  unfold isAsciiUpper at h ⊢
  simp only [Bool.or_eq_false_iff, Bool.and_eq_false_iff,
    decide_eq_false_iff_not, not_le] at h ⊢
  omega

theorem kebabChar_not_ascii_upper (a c : Char) (h : c ∈ kebabChar a) :
    isAsciiUpper c = false := by
  unfold kebabChar at h
  by_cases ha : isUppercaseChar a = true
  · rw [if_pos ha] at h
    rcases List.mem_cons.mp h with rfl | h2
    · rfl
    · rcases List.mem_cons.mp h2 with rfl | h3
      · exact isAsciiUpper_toAsciiLowercase a
      · cases h3
  · rw [if_neg ha] at h
    rcases List.mem_cons.mp h with rfl | h2
    · exact isAsciiUpper_eq_false_of_not_upper c (Bool.not_eq_true _ ▸ ha)
    · cases h2

theorem mem_trimStartHyphens : ∀ (l : List Char) (c : Char),
    c ∈ trimStartHyphens l → c ∈ l
  | [], _, h => h
  | a :: rest, c, h => by
    simp only [trimStartHyphens] at h
    by_cases ha : a = '-'
    · rw [if_pos ha] at h
      exact List.mem_cons_of_mem _ (mem_trimStartHyphens rest c h)
    · rwa [if_neg ha] at h

theorem specTagWalk_eq_flatMap : ∀ (l : List Char),
    l.flatMap kebabChar = specTagWalk l
  | [] => rfl
  | c :: rest => by
    simp only [List.flatMap_cons, specTagWalk, kebabChar]
    rw [← specTagWalk_eq_flatMap rest]
    by_cases h : isUppercaseChar c = true
    · rw [if_pos h, if_pos h]
      rfl
    · rw [if_neg h, if_neg h]
      rfl

theorem classIdent_ne (N : String) : classIdent N ≠ N := by
  intro h
  have hlen := congrArg String.length h
  simp only [classIdent, String.length_append] at hlen
  have h7 : "Element".length = 7 := rfl
  omega

/-- The transformed body, computed from an explicit decomposition of the
input body at its last default-export item. -/
theorem transform_body_of_decomp (m : Module) (N : String)
    (pre post : List ModuleItem) (d : DefaultDecl)
    (hm : m.body = pre ++ .moduleDecl (.exportDefaultDecl d) :: post)
    (hpost : ∀ it ∈ post, isEDD it = false)
    (hN : payloadUpdate d (scanAux pre 0 none none).1 = some N) :
    scan m = (some N, some pre.length) ∧
    (transform m).body =
      pre ++ classDeclItem N :: defineCallItem N :: newExportItem N :: post := by
  have hscan : scan m = (some N, some pre.length) := by
    unfold scan
    rw [hm, scan_last_edd pre post d hpost, hN]
  refine ⟨hscan, ?_⟩
  rw [transform_eq_splice m N pre.length hscan]
  show m.body.take pre.length ++ _ ++ m.body.drop (pre.length + 1) = _
  rw [hm, List.take_left,
    List.append_cons pre (.moduleDecl (.exportDefaultDecl d)) post,
    List.drop_left'
      (show (pre ++ [ModuleItem.moduleDecl (.exportDefaultDecl d)]).length =
        pre.length + 1 by simp),
    List.append_assoc]
  rfl

/-! ### The claims -/

/-- C1: for every eligible module the default-export item at the recorded
index is replaced by exactly three items — the generated class declaration,
the registration call and a new default-export item whose payload is an
identifier reference to the generated class identifier, in this order — so
the output body is exactly two items longer, every other item keeps its
identity and relative order (the take/drop decomposition), and the final
item of the rewritten region is a default export of the generated class
identifier, which is never the original component identifier. -/
theorem c1_splice_shape (m : Module) (N : String) (i : Nat)
    (h : scan m = (some N, some i)) :
    (transform m).body =
      m.body.take i ++ [classDeclItem N, defineCallItem N, newExportItem N] ++
        m.body.drop (i + 1) ∧
    (transform m).body.length = m.body.length + 2 ∧
    (transform m).body[i + 2]? =
      some (.moduleDecl (.exportDefaultDecl (.identDD (classIdent N)))) ∧
    classIdent N ≠ N := by
  obtain ⟨_, hlen, _, _, hexp⟩ := transform_items m N i h
  refine ⟨?_, hlen, hexp, classIdent_ne N⟩
  rw [transform_eq_splice m N i h]
  rfl

/-- C1 witness: the single-item module `export default function Foo() {}`
is eligible with recorded index 0, and the theorem's conclusions hold. -/
theorem c1_splice_shape_witness :
    (transform mFoo).body =
      mFoo.body.take 0 ++
        [classDeclItem "Foo", defineCallItem "Foo", newExportItem "Foo"] ++
        mFoo.body.drop 1 ∧
    (transform mFoo).body.length = mFoo.body.length + 2 ∧
    (transform mFoo).body[2]? =
      some (.moduleDecl (.exportDefaultDecl (.identDD (classIdent "Foo")))) ∧
    classIdent "Foo" ≠ "Foo" :=
  c1_splice_shape mFoo "Foo" 0 rfl

/-- C2 counterexample: at the uppercase character `É` the walk emits a
hyphen followed by `É` itself — `to_ascii_lowercase` does not move a
non-ASCII capital — not its lowercase form `é`, so for the component name
`AÉB` the derived tag is `fluxel-a-É-b` and not the `fluxel-a-é-b` the
claimed walk would produce. -/
theorem c2_counterexample :
    isUppercaseChar 'É' = true ∧
    kebabChar 'É' = ['-', 'É'] ∧
    ('É' : Char) ≠ 'é' ∧
    tagName "AÉB" = "fluxel-a-É-b" ∧
    "fluxel-a-É-b" ≠ "fluxel-a-é-b" := by
  refine ⟨rfl, by decide, by decide, by decide, by decide⟩

/-- C2 (amended): the derived tag name walks the identifier's characters,
emitting a hyphen followed by the ASCII-lowercased form of each uppercase
character — a non-ASCII capital is hyphenated but emitted unchanged — and
every other character unchanged, strips leading hyphens and prepends
`fluxel-`; the documented examples hold, including the acronym case with no
special-casing, and `AÉB` derives to `fluxel-a-É-b`. -/
theorem c2_amended_tag_derivation :
    (∀ name : String, tagName name = tagNameSpec name) ∧
    tagName "MyButton" = "fluxel-my-button" ∧
    tagName "foo" = "fluxel-foo" ∧
    tagName "Button" = "fluxel-button" ∧
    tagName "HTTPButton" = "fluxel-h-t-t-p-button" ∧
    tagName "AÉB" = "fluxel-a-É-b" := by
  refine ⟨?_, by decide, rfl, by decide, by decide, by decide⟩
  intro name
  unfold tagName tagNameSpec
  rw [specTagWalk_eq_flatMap]

/-- C3: a module with no default-export item at all, and more generally any
module whose scan records no component name (the payload resolves to
neither a named function declaration nor a bare identifier), is returned
structurally unmodified. -/
theorem c3_identity_on_ineligible (m : Module) :
    ((∀ it ∈ m.body, isEDD it = false) → transform m = m) ∧
    ((scan m).1 = none → transform m = m) := by
  have h2 : (scan m).1 = none → transform m = m := by
    intro h
    unfold transform
    cases hscan : scan m with
    | mk nm idx =>
      cases nm with
      | none => rfl
      | some x =>
        rw [hscan] at h
        simp at h
  refine ⟨?_, h2⟩
  intro h
  apply h2
  rw [scan, scanAux_no_edd m.body h]

/-- C3 witness: a module with one plain statement and no default export,
and a module whose only default export is an anonymous function, are both
left unmodified. -/
theorem c3_identity_on_ineligible_witness :
    transform ⟨[.stmtI .otherS]⟩ = ⟨[.stmtI .otherS]⟩ ∧
    transform ⟨[.moduleDecl (.exportDefaultDecl (.fnDD none))]⟩ =
      ⟨[.moduleDecl (.exportDefaultDecl (.fnDD none))]⟩ :=
  ⟨(c3_identity_on_ineligible ⟨[.stmtI .otherS]⟩).1 (by decide),
   (c3_identity_on_ineligible ⟨[.moduleDecl (.exportDefaultDecl (.fnDD none))]⟩).2 rfl⟩

/-- C4: for every eligible module the synthesized class is named by
appending `Element` to the component name (hence textually distinct from
it), its sole member is a zero-argument constructor, and the constructor
body is, in order: a binding of a local name to an empty object literal, a
binding of a second local name to a call of the original component
identifier with that object, and a call of `attachShadow` on `this` with
`{ mode: "open" }` whose result receives `appendChild` with the second
local. -/
theorem c4_class_synthesis (m : Module) (N : String) (i : Nat)
    (h : scan m = (some N, some i)) :
    (transform m).body[i]? = some (classDeclItem N) ∧
    classDeclItem N = specClassItem N ∧
    N ++ "Element" ≠ N := by
  obtain ⟨_, _, hcls, _, _⟩ := transform_items m N i h
  exact ⟨hcls, rfl, classIdent_ne N⟩

/-- C4 witness: the class synthesized for `export default function Foo()`
sits at index 0 of the output and has the stated shape. -/
theorem c4_class_synthesis_witness :
    (transform mFoo).body[0]? = some (classDeclItem "Foo") ∧
    classDeclItem "Foo" = specClassItem "Foo" ∧
    "Foo" ++ "Element" ≠ "Foo" :=
  c4_class_synthesis mFoo "Foo" 0 rfl

/-- C5: for every eligible module the synthesized registration is a single
top-level expression statement calling `customElements.define` whose first
argument is the derived tag name as a string literal and whose second
argument is an identifier reference to the generated class. -/
theorem c5_registration (m : Module) (N : String) (i : Nat)
    (h : scan m = (some N, some i)) :
    (transform m).body[i + 1]? = some (defineCallItem N) ∧
    defineCallItem N = .stmtI (.exprS (.call
      (.member (.identE "customElements") "define")
      [.litStr (tagName N), .identE (classIdent N)])) := by
  obtain ⟨_, _, _, hdef, _⟩ := transform_items m N i h
  exact ⟨hdef, rfl⟩

/-- C5 witness: the registration synthesized for
`export default function Foo()` sits at index 1 and has the stated shape. -/
theorem c5_registration_witness :
    (transform mFoo).body[1]? = some (defineCallItem "Foo") ∧
    defineCallItem "Foo" = .stmtI (.exprS (.call
      (.member (.identE "customElements") "define")
      [.litStr (tagName "Foo"), .identE (classIdent "Foo")])) :=
  c5_registration mFoo "Foo" 0 rfl

/-- C6 counterexample: in a module whose default-export items are a named
function followed by a default-exported class, the recorded index is that
of the last default-export item (1), but the payload used is `Foo`, taken
from the first item — the last item scanned alone records no payload, as
the second conjunct shows — and the transform rewrites the module instead
of treating it as ineligible. So the payload used is not that of the last
default-export item. -/
theorem c6_counterexample :
    scan mMulti = (some "Foo", some 1) ∧
    scan ⟨[.moduleDecl (.exportDefaultDecl (.classDD none))]⟩ = (none, some 0) ∧
    transform mMulti ≠ mMulti := by
  refine ⟨rfl, rfl, ?_⟩
  intro hEq
  have hlen := congrArg (fun mm : Module => mm.body.length) hEq
  have h4 : (transform mMulti).body.length = 4 := rfl
  have h2 : mMulti.body.length = 2 := rfl
  simp only at hlen
  omega

/-- C6 (amended): the index used by the splice is that of the last
default-export item in module order, with no diagnostic; the payload is the
last one written during the scan — a function-shaped default export
overwrites it with its (possibly absent) name, an identifier-shaped one
with that identifier, and every other shape leaves the previously recorded
payload unchanged. -/
theorem c6_amended_last_export_wins (m : Module) (pre post : List ModuleItem)
    (d : DefaultDecl)
    (hm : m.body = pre ++ .moduleDecl (.exportDefaultDecl d) :: post)
    (hpost : ∀ it ∈ post, isEDD it = false) :
    (scan m).2 = some pre.length ∧
    (scan m).1 = payloadUpdate d (scanAux pre 0 none none).1 := by
  unfold scan
  rw [hm, scan_last_edd pre post d hpost]
  exact ⟨rfl, rfl⟩

/-- C6 witness: in the two-default-export module the recorded index is 1
(the class item) while the payload is the first item's update. -/
theorem c6_amended_last_export_wins_witness :
    (scan mMulti).2 = some 1 ∧
    (scan mMulti).1 = payloadUpdate (.classDD none)
      (scanAux [.moduleDecl (.exportDefaultDecl (.fnDD (some "Foo")))] 0 none none).1 :=
  c6_amended_last_export_wins mMulti
    [.moduleDecl (.exportDefaultDecl (.fnDD (some "Foo")))] [] (.classDD none)
    rfl (by decide)

/-- C7: the transform is not idempotent: for an eligible module the output
is itself eligible, with the generated class identifier as payload at index
`i + 2`; a second application grows the module by two more items,
synthesizes a class named by appending `Element` twice, registers the
generated name's own kebab-case derivation, and therefore differs from the
single application. -/
theorem c7_non_idempotent (m : Module) (N : String) (i : Nat)
    (h : scan m = (some N, some i)) :
    scan (transform m) = (some (classIdent N), some (i + 2)) ∧
    (transform m).body.length = m.body.length + 2 ∧
    (transform (transform m)).body.length = m.body.length + 4 ∧
    (transform (transform m)).body[i + 2]? = some (classDeclItem (classIdent N)) ∧
    (transform (transform m)).body[i + 3]? = some (defineCallItem (classIdent N)) ∧
    classIdent (classIdent N) = N ++ "Element" ++ "Element" ∧
    transform (transform m) ≠ transform m := by
  obtain ⟨pre, d, post, hb, hi, hp, ht⟩ := transform_decomp m N i h
  have hsplit : (transform m).body =
      (pre ++ [classDeclItem N, defineCallItem N]) ++
        ModuleItem.moduleDecl (.exportDefaultDecl (.identDD (classIdent N))) :: post := by
    rw [ht]
    simp [newExportItem, List.append_assoc]
  have hscan2 : scan (transform m) = (some (classIdent N), some (i + 2)) := by
    unfold scan
    rw [hsplit, scan_last_edd _ post (.identDD (classIdent N)) hp]
    simp [payloadUpdate, List.length_append, hi]
  have hitems1 := transform_items m N i h
  have hlen1 : (transform m).body.length = m.body.length + 2 := hitems1.2.1
  have hitems2 := transform_items (transform m) (classIdent N) (i + 2) hscan2
  refine ⟨hscan2, hlen1, ?_, hitems2.2.2.1, hitems2.2.2.2.1, rfl, ?_⟩
  · rw [hitems2.2.1, hlen1]
  · intro hEq
    have hlen := congrArg (fun mm : Module => mm.body.length) hEq
    simp only at hlen
    rw [hitems2.2.1] at hlen
    omega

/-- C7 witness: both applications on `export default function Foo() {}`,
showing eligibility of the output, the doubled suffix, and the growth. -/
theorem c7_non_idempotent_witness :
    scan (transform mFoo) = (some (classIdent "Foo"), some 2) ∧
    (transform mFoo).body.length = mFoo.body.length + 2 ∧
    (transform (transform mFoo)).body.length = mFoo.body.length + 4 ∧
    (transform (transform mFoo)).body[2]? =
      some (classDeclItem (classIdent "Foo")) ∧
    (transform (transform mFoo)).body[3]? =
      some (defineCallItem (classIdent "Foo")) ∧
    classIdent (classIdent "Foo") = "Foo" ++ "Element" ++ "Element" ∧
    transform (transform mFoo) ≠ transform mFoo :=
  c7_non_idempotent mFoo "Foo" 0 rfl

/-- C8 counterexample: the tag derived for the component name `AÉB`
contains the uppercase character `É` — `to_ascii_lowercase` leaves a
non-ASCII capital unchanged after the hyphen — so the derived tag is not
entirely lowercase. -/
theorem c8_counterexample :
    tagName "AÉB" = "fluxel-a-É-b" ∧
    'É' ∈ (tagName "AÉB").data ∧
    isUppercaseChar 'É' = true := by
  refine ⟨by decide, by decide, rfl⟩

/-- C8 (amended): the derived tag name is non-empty, begins with the seven
characters of the fixed prefix `fluxel-`, contains a hyphen, and contains
no ASCII uppercase character (a non-ASCII capital in the component name
survives uppercase into the tag). -/
theorem c8_amended_tag_invariant (name : String) :
    tagName name ≠ "" ∧
    (tagName name).data.take 7 = "fluxel-".data ∧
    '-' ∈ (tagName name).data ∧
    (tagName name).data.all (fun c => !(isAsciiUpper c)) = true := by
  refine ⟨?_, ?_, ?_, ?_⟩
  · intro h
    have hlen := congrArg String.length h
    simp only [tagName, String.length_append] at hlen
    have h7 : "fluxel-".length = 7 := rfl
    have h0 : "".length = 0 := rfl
    omega
  · simp only [tagName, String.data_append]
    exact List.take_left' rfl
  · simp only [tagName, String.data_append]
    exact List.mem_append_left _ (by decide)
  · rw [List.all_eq_true]
    intro c hc
    simp only [tagName, String.data_append] at hc
    rcases List.mem_append.mp hc with h1 | h2
    · have h1' : c ∈ ['f', 'l', 'u', 'x', 'e', 'l', '-'] := h1
      simp only [List.mem_cons, List.not_mem_nil, or_false] at h1'
      rcases h1' with rfl | rfl | rfl | rfl | rfl | rfl | rfl <;> decide
    · have h2' := mem_trimStartHyphens _ _ h2
      rcases List.mem_flatMap.mp h2' with ⟨a, _, hca⟩
      simp [kebabChar_not_ascii_upper a c hca]

/-- C8 witness: the amended invariant instantiated at the component name
`MyButton`. -/
theorem c8_amended_tag_invariant_witness :
    tagName "MyButton" ≠ "" ∧
    (tagName "MyButton").data.take 7 = "fluxel-".data ∧
    '-' ∈ (tagName "MyButton").data ∧
    (tagName "MyButton").data.all (fun c => !(isAsciiUpper c)) = true :=
  c8_amended_tag_invariant "MyButton"

/-- C9 counterexample: the class node synthesized for the eligible module
`export default function Foo() {}` carries the superclass `HTMLElement`
(`super_class: Some(HTMLElement)` in the source), so its superclass slot is
not empty, contradicting the claimed absence of a superclass. -/
theorem c9_counterexample :
    (transform mFoo).body[0]? = some (classDeclItem "Foo") ∧
    itemSuperClass (classDeclItem "Foo") = some (.identE "HTMLElement") ∧
    itemSuperClass (classDeclItem "Foo") ≠ none :=
  ⟨rfl, rfl, fun h => nomatch h⟩

/-- C9 (amended): for every eligible module the synthesized class
declaration is a new class node whose superclass is the identifier
`HTMLElement`, and it contains no members other than the one
constructor. -/
theorem c9_amended_class_shape (m : Module) (N : String) (i : Nat)
    (h : scan m = (some N, some i)) :
    (transform m).body[i]? = some (classDeclItem N) ∧
    itemSuperClass (classDeclItem N) = some (.identE "HTMLElement") ∧
    itemClassMembers (classDeclItem N) =
      [.ctorM { paramCount := 0, body := some (ctorBody N) }] := by
  obtain ⟨_, _, hcls, _, _⟩ := transform_items m N i h
  exact ⟨hcls, rfl, rfl⟩

/-- C9 witness: the amended shape at `export default function Foo() {}`. -/
theorem c9_amended_class_shape_witness :
    (transform mFoo).body[0]? = some (classDeclItem "Foo") ∧
    itemSuperClass (classDeclItem "Foo") = some (.identE "HTMLElement") ∧
    itemClassMembers (classDeclItem "Foo") =
      [.ctorM { paramCount := 0, body := some (ctorBody "Foo") }] :=
  c9_amended_class_shape mFoo "Foo" 0 rfl

/-- C10: when the module's only default-export item is a named function
declaration directly in export-default position and no other item binds the
component name, the output of the transform contains no item binding that
name — the declaration is removed by the splice and never re-inserted —
even though the synthesized constructor body still calls the component
identifier (second conjunct). -/
theorem c10_component_decl_removed (m : Module) (N : String)
    (pre post : List ModuleItem)
    (hm : m.body = pre ++ .moduleDecl (.exportDefaultDecl (.fnDD (some N))) :: post)
    (hpre : pre.any (declaresName N) = false)
    (hpost : post.any (fun it => isEDD it || declaresName N it) = false) :
    (transform m).body.any (declaresName N) = false ∧
    (ctorBody N)[1]? = some (.declVar
      { kind := .constK
        declareFlag := false
        decls := [{ name := .identP "_n"
                    init := some (.call (.identE N) [.identE "__props"])
                    definite := false }] }) := by
  refine ⟨?_, rfl⟩
  rw [List.any_eq_false] at hpre hpost
  have hpost2 : ∀ it ∈ post, isEDD it = false ∧ declaresName N it = false := by
    intro it hx
    have hh := hpost it hx
    simp only [Bool.or_eq_true, not_or, Bool.not_eq_true] at hh
    exact hh
  have hpre2 : ∀ it ∈ pre, declaresName N it = false := by
    intro it hx
    have hh := hpre it hx
    simpa using hh
  obtain ⟨_, ht⟩ := transform_body_of_decomp m N pre post (.fnDD (some N)) hm
    (fun it hx => (hpost2 it hx).1) rfl
  rw [List.any_eq_false, ht]
  intro x hx
  rcases List.mem_append.mp hx with hxp | hxm
  · intro hcontra
    rw [hpre2 x hxp] at hcontra
    exact Bool.false_ne_true hcontra
  · rcases List.mem_cons.mp hxm with rfl | hxm
    · intro hcontra
      exact classIdent_ne N (eq_of_beq hcontra)
    · rcases List.mem_cons.mp hxm with rfl | hxm
      · intro hcontra
        exact Bool.false_ne_true hcontra
      · rcases List.mem_cons.mp hxm with rfl | hxm
        · intro hcontra
          exact Bool.false_ne_true hcontra
        · intro hcontra
          rw [(hpost2 x hxm).2] at hcontra
          exact Bool.false_ne_true hcontra

/-- C10 witness: a module with one plain statement and then
`export default function Foo() {}` keeps no binder of `Foo` after the
transform. -/
theorem c10_component_decl_removed_witness :
    (transform ⟨[.stmtI .otherS,
      .moduleDecl (.exportDefaultDecl (.fnDD (some "Fooy")))]⟩).body.any
        (declaresName "Fooy") = false ∧
    (ctorBody "Fooy")[1]? = some (.declVar
      { kind := .constK
        declareFlag := false
        decls := [{ name := .identP "_n"
                    init := some (.call (.identE "Fooy") [.identE "__props"])
                    definite := false }] }) :=
  c10_component_decl_removed
    ⟨[.stmtI .otherS, .moduleDecl (.exportDefaultDecl (.fnDD (some "Fooy")))]⟩
    "Fooy" [.stmtI .otherS] [] rfl rfl rfl

end Fluxel
